import Mathlib

/-!
Shallow embedding of the edgen-factory client-side token registry
(`src/lib/tokenStorage.ts`), the blockchain sync operation
(`src/hooks/useTokenManager.ts`) and the wallet session handler
(`src/components/WalletConnect.tsx`), together with proofs of the
specification's testable properties.

The registry state is the pair of the two in-memory maps of the
`TokenStorage` class; JavaScript `Map` objects with string keys are
embedded as insertion-ordered association lists.  Times (`Date.now()`)
are threaded as explicit parameters.  The durable `localStorage` write
is modelled by an explicit success flag (see `saveToStorage`).
-/

namespace EdgenFactory

/-! ## JavaScript string primitives used by the source -/

/-- JavaScript `s.toLowerCase()` restricted to the ASCII case mapping
(all strings handled by the registry are ASCII hex addresses, names and
symbols). -/
def jsToLower (s : String) : String := ⟨s.data.map Char.toLower⟩

/-- Character-list prefix test: `charsHasPref q s` is true when `q` is a
prefix of `s`. -/
def charsHasPref : List Char → List Char → Bool
  | [], _ => true
  | _ :: _, [] => false
  | a :: as, b :: bs => a == b && charsHasPref as bs

/-- Character-list substring test: `charsHasSub q s` is true when `q`
occurs contiguously inside `s`. -/
def charsHasSub : List Char → List Char → Bool
  | q, [] => charsHasPref q []
  | q, b :: bs => charsHasPref q (b :: bs) || charsHasSub q bs

/-- JavaScript `s.includes(q)`. -/
def strIncludes (s q : String) : Bool := charsHasSub q.data s.data

/-- A lowercase hexadecimal digit. -/
def isHexLowerDigit (c : Char) : Bool := c.isDigit || ('a' ≤ c && c ≤ 'f')

/-- Modelled from the external `ethers.isAddress` check used by
`TokenStorage.isValidToken`: a 42-character string of the shape
`0x` followed by 40 hex digits.  The model is restricted to lowercase
hex addresses; validating the mixed-case checksum form would require
keccak-256 and is outside the embedding. -/
def isAddress (s : String) : Bool :=
  s.data.length == 42 && s.data.take 2 == ['0', 'x'] &&
    (s.data.drop 2).all isHexLowerDigit

/-- Decimal digit accumulation for `natToString`: prepends the decimal
digits of `n` to `acc`, spending one unit of fuel per digit. -/
def decDigits : Nat → Nat → List Char → List Char
  | 0, _, acc => acc
  | fuel + 1, n, acc =>
    let acc' := Char.ofNat (48 + n % 10) :: acc
    if n / 10 = 0 then acc' else decDigits fuel (n / 10) acc'

/-- Decimal rendering of a natural number, as produced by JavaScript
`bigint.toString()` on the nonnegative on-chain quantities. -/
def natToString (n : Nat) : String := ⟨decDigits (n + 1) n []⟩

/-- A nonempty string consisting only of decimal digits. -/
def isDecimalString (s : String) : Bool := !s.data.isEmpty && s.data.all Char.isDigit

/-! ## Data model (`src/lib/tokenStorage.ts`) -/

/-- The `UserToken` interface. -/
structure UserToken where
  address : String
  name : String
  symbol : String
  initialSupply : String
  maxSupply : String
  decimals : Nat
  creator : String
  createdAt : Nat
  transactionHash : String
  network : String
  chainId : Nat
  deriving DecidableEq, Repr

/-- The `TokenMetadata` interface; the optional fields are `Option`s and
`lastUpdated` is a Unix-milliseconds stamp. -/
structure TokenMetadata where
  description : Option String := none
  website : Option String := none
  logo : Option String := none
  tags : Option (List String) := none
  isVerified : Option Bool := none
  lastUpdated : Nat
  deriving DecidableEq, Repr

/-- The `UserTokenWithMetadata` interface (`UserToken` plus an optional
`metadata` property). -/
structure UserTokenWithMetadata extends UserToken where
  metadata : Option TokenMetadata := none
  deriving DecidableEq, Repr

/-- `Partial<TokenMetadata>`: each field is present (`some`) or absent
(`none`); a present field overwrites the stored one on spread-merge. -/
structure TokenMetadataPatch where
  description : Option String := none
  website : Option String := none
  logo : Option String := none
  tags : Option (List String) := none
  isVerified : Option Bool := none
  lastUpdated : Option Nat := none
  deriving DecidableEq, Repr

/-! ## JavaScript `Map` with string keys, as an insertion-ordered
association list -/

/-- `Map.get`, returning the value of the first (unique) matching key. -/
def mapGet {α : Type} (m : List (String × α)) (k : String) : Option α :=
  (m.find? (fun kv => kv.1 == k)).map (fun kv => kv.2)

/-- `Map.set`: replaces the value of an existing key in place, otherwise
appends the new entry at the end (JavaScript `Map` insertion order). -/
def mapSet {α : Type} : List (String × α) → String → α → List (String × α)
  | [], k, v => [(k, v)]
  | (k', v') :: rest, k, v =>
    if k' == k then (k, v) :: rest else (k', v') :: mapSet rest k v

/-- The in-memory state of the `TokenStorage` singleton: the
`userTokens` map (lowercased owner address to token list) and the
`tokenMetadata` map (lowercased token address to metadata). -/
structure TokenStorage where
  userTokens : List (String × List UserTokenWithMetadata)
  tokenMetadata : List (String × TokenMetadata)
  deriving DecidableEq, Repr

/-- The state of a freshly constructed registry (empty maps). -/
def emptyStorage : TokenStorage := { userTokens := [], tokenMetadata := [] }

/-- The `this.userTokens.get(normalizedAddress) || []` read used
throughout `TokenStorage`. -/
def ownerList (st : TokenStorage) (userAddress : String) : List UserTokenWithMetadata :=
  (mapGet st.userTokens (jsToLower userAddress)).getD []

/-- The spread merge `{ ...userTokens[existingIndex], ...token }` of
`addUserToken`: the incoming `UserToken`'s fields (all present)
overwrite the stored ones; the remaining stored field (`metadata`)
persists. -/
def mergeToken (old : UserTokenWithMetadata) (new : UserToken) : UserTokenWithMetadata :=
  { toUserToken := new, metadata := old.metadata }

/-- The list update performed by `addUserToken`: replace the first
record whose address matches case-insensitively in place
(`findIndex` then assignment), otherwise `push` the token at the end. -/
def addToList (token : UserToken) : List UserTokenWithMetadata → List UserTokenWithMetadata
  | [] => [{ toUserToken := token, metadata := none }]
  | r :: rs =>
    if jsToLower r.address == jsToLower token.address then mergeToken r token :: rs
    else r :: addToList token rs

/-- `TokenStorage.addUserToken` (in-memory part; the durable write is
`saveToStorage` below, which never throws and never changes memory). -/
def addUserToken (st : TokenStorage) (userAddress : String) (token : UserToken) :
    TokenStorage :=
  let normalizedAddress := jsToLower userAddress
  let userTokens := (mapGet st.userTokens normalizedAddress).getD []
  { st with userTokens := mapSet st.userTokens normalizedAddress (addToList token userTokens) }

/-- `TokenStorage.getUserTokens`: the owner's records, each with the
`metadata` property re-derived from the metadata map at read time. -/
def getUserTokens (st : TokenStorage) (userAddress : String) : List UserTokenWithMetadata :=
  (ownerList st userAddress).map
    (fun t => { t with metadata := mapGet st.tokenMetadata (jsToLower t.address) })

/-- `TokenStorage.getToken`. -/
def getToken (st : TokenStorage) (userAddress tokenAddress : String) :
    Option UserTokenWithMetadata :=
  (getUserTokens st userAddress).find?
    (fun t => jsToLower t.address == jsToLower tokenAddress)

/-- The `|| { lastUpdated: 0 }` fallback of `updateTokenMetadata`. -/
def baselineMetadata : TokenMetadata :=
  { description := none, website := none, logo := none, tags := none,
    isVerified := none, lastUpdated := 0 }

/-- The spread merge `{ ...existing, ...metadata }` of
`updateTokenMetadata`: fields present in the partial overwrite the
stored ones, absent fields persist. -/
def mergeMetadata (existing : TokenMetadata) (p : TokenMetadataPatch) : TokenMetadata :=
  { description := match p.description with | some v => some v | none => existing.description
    website := match p.website with | some v => some v | none => existing.website
    logo := match p.logo with | some v => some v | none => existing.logo
    tags := match p.tags with | some v => some v | none => existing.tags
    isVerified := match p.isVerified with | some v => some v | none => existing.isVerified
    lastUpdated := match p.lastUpdated with | some v => v | none => existing.lastUpdated }

/-- `TokenStorage.updateTokenMetadata`; `now` is the value of
`Date.now()` at the call. -/
def updateTokenMetadata (st : TokenStorage) (tokenAddress : String)
    (metadata : TokenMetadataPatch) (now : Nat) : TokenStorage :=
  let normalizedAddress := jsToLower tokenAddress
  let existing := (mapGet st.tokenMetadata normalizedAddress).getD baselineMetadata
  { st with
    tokenMetadata :=
      mapSet st.tokenMetadata normalizedAddress
        { mergeMetadata existing metadata with lastUpdated := now } }

/-- `TokenStorage.removeUserToken`: filters the matching record out and
writes the filtered list back under the owner's key. -/
def removeUserToken (st : TokenStorage) (userAddress tokenAddress : String) :
    TokenStorage :=
  let normalizedUserAddress := jsToLower userAddress
  let normalizedTokenAddress := jsToLower tokenAddress
  let userTokens := (mapGet st.userTokens normalizedUserAddress).getD []
  { st with
    userTokens :=
      mapSet st.userTokens normalizedUserAddress
        (userTokens.filter (fun t => jsToLower t.address != normalizedTokenAddress)) }

/-- `TokenStorage.getAllTokens`. -/
def getAllTokens (st : TokenStorage) : List UserTokenWithMetadata :=
  st.userTokens.foldl
    (fun acc kv =>
      acc ++ kv.2.map (fun t => { t with metadata := mapGet st.tokenMetadata (jsToLower t.address) }))
    []

/-- `TokenStorage.searchTokens`: case-insensitive substring match of the
query against name, symbol or address. -/
def searchTokens (st : TokenStorage) (userAddress query : String) :
    List UserTokenWithMetadata :=
  let tokens := getUserTokens st userAddress
  let lowerQuery := jsToLower query
  tokens.filter (fun token =>
    strIncludes (jsToLower token.name) lowerQuery ||
    strIncludes (jsToLower token.symbol) lowerQuery ||
    strIncludes (jsToLower token.address) lowerQuery)

/-- `TokenStorage.getTokensByNetwork`. -/
def getTokensByNetwork (st : TokenStorage) (userAddress : String) (chainId : Nat) :
    List UserTokenWithMetadata :=
  (getUserTokens st userAddress).filter (fun t => t.chainId == chainId)

/-- The in-memory part of `TokenStorage.getStorageStats`
(`storageSize` and `lastSync` are read from the durable store, which is
outside the in-memory state). -/
structure StorageStats where
  totalUsers : Nat
  totalTokens : Nat
  deriving DecidableEq, Repr

/-- `getStorageStats`: `totalUsers` is `this.userTokens.size`,
`totalTokens` is `this.getAllTokens().length`. -/
def getStorageStats (st : TokenStorage) : StorageStats :=
  { totalUsers := st.userTokens.length, totalTokens := (getAllTokens st).length }

/-! ## Export / import (`exportUserData`, `importUserData`,
`isValidToken`) -/

/-- A JSON value at the positions inspected by `isValidToken`'s
`typeof` checks: a string, a (nonnegative) number, or anything else. -/
inductive JVal where
  | jstr (s : String)
  | jnum (n : Nat)
  | jother
  deriving DecidableEq, Repr

/-- `typeof v === 'string'`. -/
def JVal.isJStr : JVal → Bool
  | .jstr _ => true
  | _ => false

/-- `typeof v === 'number'`. -/
def JVal.isJNum : JVal → Bool
  | .jnum _ => true
  | _ => false

/-- The string payload of a `JVal` (only read behind an `isJStr`
guard). -/
def JVal.strD : JVal → String
  | .jstr s => s
  | _ => ""

/-- The numeric payload of a `JVal` (only read behind an `isJNum`
guard). -/
def JVal.numD : JVal → Nat
  | .jnum n => n
  | _ => 0

/-- A parsed record of an import payload.  The fields inspected by
`isValidToken` carry their runtime JSON type (`JVal`); the fields the
validator never inspects are carried at their record types. -/
structure RawToken where
  address : JVal
  name : JVal
  symbol : JVal
  creator : JVal
  decimals : JVal
  createdAt : JVal
  initialSupply : String := "0"
  maxSupply : String := "0"
  transactionHash : String := ""
  network : String := ""
  chainId : Nat := 0
  deriving DecidableEq, Repr

/-- `TokenStorage.isValidToken`: `typeof` checks on the six inspected
fields, then chain-address well-formedness of `address` and
`creator`. -/
def isValidToken (t : RawToken) : Bool :=
  t.address.isJStr && t.name.isJStr && t.symbol.isJStr && t.creator.isJStr &&
    t.decimals.isJNum && t.createdAt.isJNum &&
    isAddress t.address.strD && isAddress t.creator.strD

/-- The `UserToken` stored by `addUserToken` for a validated import
record (the validator guarantees the inspected fields have their
expected types). -/
def rawToUserToken (t : RawToken) : UserToken :=
  { address := t.address.strD, name := t.name.strD, symbol := t.symbol.strD,
    initialSupply := t.initialSupply, maxSupply := t.maxSupply,
    decimals := t.decimals.numD, creator := t.creator.strD,
    createdAt := t.createdAt.numD, transactionHash := t.transactionHash,
    network := t.network, chainId := t.chainId }

/-- The document produced by `exportUserData` (`exportedAt`, a wall
clock string, is omitted as it is never read back). -/
structure ExportDoc where
  userAddress : String
  tokens : List UserTokenWithMetadata
  version : String
  deriving DecidableEq, Repr

/-- `TokenStorage.exportUserData`. -/
def exportUserData (st : TokenStorage) (userAddress : String) : ExportDoc :=
  { userAddress := userAddress, tokens := getUserTokens st userAddress, version := "1.0" }

/-- The document seen by `importUserData` after `JSON.parse`:
`tokens = none` models a payload whose `tokens` key is missing or not an
array (the code then throws and the catch returns `false`). -/
structure ImportDoc where
  tokens : Option (List RawToken)
  deriving DecidableEq, Repr

/-- `TokenStorage.importUserData`: validates each record, adds the valid
ones through `addUserToken`, skips the invalid ones, and reports overall
success; a malformed document reaches the catch block and reports
failure with the state untouched. -/
def importUserData (st : TokenStorage) (userAddress : String) (data : ImportDoc) :
    Bool × TokenStorage :=
  match data.tokens with
  | none => (false, st)
  | some ts =>
    (true,
      ts.foldl
        (fun s token =>
          if isValidToken token then addUserToken s userAddress (rawToUserToken token) else s)
        st)

/-- The `JSON.parse ∘ JSON.stringify` round trip on one exported record:
the inspected fields come back as JSON strings/numbers.  The `metadata`
property also survives the round trip, but `isValidToken` never inspects
it and `getUserTokens` overwrites it from the metadata map on every
read, so it is not carried by the model. -/
def recordToRaw (r : UserTokenWithMetadata) : RawToken :=
  { address := .jstr r.address, name := .jstr r.name, symbol := .jstr r.symbol,
    creator := .jstr r.creator, decimals := .jnum r.decimals,
    createdAt := .jnum r.createdAt, initialSupply := r.initialSupply,
    maxSupply := r.maxSupply, transactionHash := r.transactionHash,
    network := r.network, chainId := r.chainId }

/-- `JSON.parse(JSON.stringify(doc))` on a whole exported document. -/
def exportRoundtrip (d : ExportDoc) : ImportDoc :=
  { tokens := some (d.tokens.map recordToRaw) }

/-! ## Durable-store write (`saveToStorage`) -/

/-- The raw `localStorage.setItem` calls of `saveToStorage`; `writeOk =
false` models a thrown storage failure (quota, serialization). -/
def storageSetItem (writeOk : Bool) : Except String Unit :=
  if writeOk then .ok () else .error "QuotaExceededError"

/-- `TokenStorage.saveToStorage`: the whole write is wrapped in
`try/catch` and a failure is only logged, never rethrown. -/
def saveToStorage (writeOk : Bool) : Except String Unit :=
  match storageSetItem writeOk with
  | .ok _ => .ok ()
  | .error _ => .ok ()

/-- `addUserToken` including its trailing `saveToStorage()` call: the
in-memory mutation happens first, then the durable write (which may
fail internally). -/
def addUserTokenAndSave (writeOk : Bool) (st : TokenStorage) (userAddress : String)
    (token : UserToken) : Except String TokenStorage :=
  let mutated := addUserToken st userAddress token
  match saveToStorage writeOk with
  | .ok _ => .ok mutated
  | .error e => .error e

/-! ## Blockchain sync (`src/hooks/useTokenManager.ts`,
`syncWithBlockchain`) -/

/-- One result of `ContractUtils.getTokensByCreator`: the on-chain
factory's record of a created token.  Supplies are `Option` because the
source guards them with `?.toString() || '0'`; `createdAt` is the
on-chain Unix-seconds timestamp. -/
structure FactoryToken where
  tokenAddress : String
  name : String
  symbol : String
  initialSupply : Option Nat
  maxSupply : Option Nat
  decimals : Nat
  creator : String
  createdAt : Nat
  deriving DecidableEq, Repr

/-- The `UserToken` built by `syncWithBlockchain` from one factory
result: supplies rendered as decimal strings (`'0'` when absent),
`createdAt` converted from seconds to milliseconds, empty transaction
hash, fixed network name, and the hook's `chainId`. -/
def factoryToUserToken (chainId : Nat) (f : FactoryToken) : UserToken :=
  { address := f.tokenAddress, name := f.name, symbol := f.symbol,
    initialSupply := (f.initialSupply.map natToString).getD "0",
    maxSupply := (f.maxSupply.map natToString).getD "0",
    decimals := f.decimals, creator := f.creator,
    createdAt := f.createdAt * 1000, transactionHash := "",
    network := "Edgen Chain", chainId := chainId }

/-- The registry effect of `syncWithBlockchain`: each factory result is
mapped to a `UserToken` and fed into `addUserToken` in order.  (The
surrounding signer guard, loading flags and state reload are UI
concerns with no registry effect.) -/
def syncWithBlockchain (st : TokenStorage) (userAddress : String) (chainId : Nat)
    (factoryTokens : List FactoryToken) : TokenStorage :=
  factoryTokens.foldl
    (fun s f => addUserToken s userAddress (factoryToUserToken chainId f)) st

/-! ## Wallet session (`src/components/WalletConnect.tsx`) -/

/-- The `networkStatus` component state. -/
inductive NetworkStatus where
  | correct
  | wrong
  | unknown
  deriving DecidableEq, Repr

/-- The component state of `WalletConnect` that the account-change
handler touches. -/
structure WalletState where
  isConnected : Bool
  address : String
  balance : String
  networkStatus : NetworkStatus
  deriving DecidableEq, Repr

/-- A snapshot of the external wallet provider at handler time:
the `eth_accounts` answer, the signer's address, the network's chain id,
the formatted balance (formatting is done by the external ethers
library), and `ok = false` models a thrown provider error. -/
structure WalletEnv where
  accounts : List String
  signerAddress : String
  chainId : Nat
  balance : String
  ok : Bool
  deriving DecidableEq, Repr

/-- `checkConnection`: when the provider reports at least one account,
re-resolve signer address, network status and balance and mark the
session connected; when it reports none, leave the state as is; when the
provider throws, only `networkStatus` is reset to `unknown`. -/
def checkConnection (env : WalletEnv) (st : WalletState) : WalletState :=
  if env.ok then
    if env.accounts.length > 0 then
      { isConnected := true, address := env.signerAddress,
        balance := env.balance,
        networkStatus := if env.chainId == 4207 then .correct else .wrong }
    else st
  else { st with networkStatus := .unknown }

/-- `handleAccountsChanged`: zero accounts force a disconnect (cleared
address and balance, unknown network, `onWalletDisconnected` fired); a
nonzero list sets the primary account as address and re-resolves through
`checkConnection`. -/
def handleAccountsChanged (env : WalletEnv) (st : WalletState) (accounts : List String) :
    WalletState :=
  if accounts.length == 0 then
    { isConnected := false, address := "", balance := "0", networkStatus := .unknown }
  else
    checkConnection env { st with address := accounts.headD "" }

/-! ## Concrete fixtures used by the witness theorems -/

/-- A lowercase hex chain address (`0x` plus 40 `a`s). -/
def addrA : String := "0xaaaaaaaaaaaaaaaaaaaaaaaaaaaaaaaaaaaaaaaa"

/-- A second lowercase hex chain address. -/
def addrB : String := "0xbbbbbbbbbbbbbbbbbbbbbbbbbbbbbbbbbbbbbbbb"

/-- A third lowercase hex chain address. -/
def addrC : String := "0xcccccccccccccccccccccccccccccccccccccccc"

/-- The sample token record of the specification's §8 scenario. -/
def tokenA : UserToken :=
  { address := addrB, name := "Test", symbol := "TST", initialSupply := "1000",
    maxSupply := "10000", decimals := 18, creator := addrA,
    createdAt := 1700000000000, transactionHash := "0x01",
    network := "Edgen Chain", chainId := 4207 }

/-- A re-add of `tokenA`'s address with a different name. -/
def tokenA2 : UserToken := { tokenA with name := "Test2" }

/-- A second token, owned by the same creator, with a searchable name. -/
def tokenB : UserToken :=
  { address := addrC, name := "USD Coin", symbol := "USDC", initialSupply := "5",
    maxSupply := "50", decimals := 6, creator := addrA,
    createdAt := 1700000000001, transactionHash := "0x02",
    network := "Edgen Chain", chainId := 4207 }

/-- A registry holding `tokenA` for the owner `addrA`. -/
def stEx : TokenStorage :=
  { userTokens := [(addrA, [{ toUserToken := tokenA, metadata := none }])],
    tokenMetadata := [] }

/-- A registry with stored metadata (tags and an older stamp) for
`addrB`. -/
def stMeta : TokenStorage :=
  { userTokens := [],
    tokenMetadata :=
      [(addrB,
        { description := none, website := none, logo := none,
          tags := some ["defi"], isVerified := none, lastUpdated := 3 })] }

/-- A metadata patch touching only `description`. -/
def pDesc : TokenMetadataPatch := { description := some "hello" }

/-- An import record whose `creator` is not a chain address. -/
def rawBad : RawToken :=
  { address := .jstr addrC, name := .jstr "Bad", symbol := .jstr "BAD",
    creator := .jstr "not-an-address", decimals := .jnum 18, createdAt := .jnum 0 }

/-- An import payload with two valid records around one invalid one. -/
def rawListEx : List RawToken :=
  [recordToRaw { toUserToken := tokenA, metadata := none }, rawBad,
   recordToRaw { toUserToken := tokenB, metadata := none }]

/-- A factory query result for `tokenA`'s address. -/
def factoryEx : FactoryToken :=
  { tokenAddress := addrB, name := "Test", symbol := "TST",
    initialSupply := some 1000, maxSupply := some 10000, decimals := 18,
    creator := addrA, createdAt := 1700000000 }

/-- A connected wallet state. -/
def walletStEx : WalletState :=
  { isConnected := true, address := "0xaa", balance := "1", networkStatus := .correct }

/-- A provider snapshot agreeing with an account-change notification to
`0xbb`. -/
def walletEnvEx : WalletEnv :=
  { accounts := ["0xbb"], signerAddress := "0xbb", chainId := 4207,
    balance := "2", ok := true }

/-- The address-match predicate used by `addUserToken`, `getToken` and
`removeUserToken`: the stored record's lowercased address equals the
lowercased probe address. -/
def matchesAddress (a : String) (r : UserTokenWithMetadata) : Bool :=
  jsToLower r.address == jsToLower a

/-! ## Helper lemmas: the association-list map -/

theorem mapGet_nil {α : Type} (k : String) : mapGet ([] : List (String × α)) k = none := rfl

theorem mapGet_cons {α : Type} (k' : String) (v' : α) (tl : List (String × α)) (k : String) :
    mapGet ((k', v') :: tl) k = if k' == k then some v' else mapGet tl k := by
  by_cases h : (k' == k) = true
  · simp [mapGet, List.find?, h]
  · simp only [Bool.not_eq_true] at h
    simp [mapGet, List.find?, h]

theorem mapSet_cons {α : Type} (k' : String) (v' : α) (tl : List (String × α)) (k : String)
    (v : α) :
    mapSet ((k', v') :: tl) k v
      = if k' == k then (k, v) :: tl else (k', v') :: mapSet tl k v := rfl

theorem mapGet_mapSet_self {α : Type} (m : List (String × α)) (k : String) (v : α) :
    mapGet (mapSet m k v) k = some v := by
  induction m with
  | nil => simp [mapSet, mapGet, List.find?]
  | cons hd tl ih =>
    obtain ⟨k', v'⟩ := hd
    rw [mapSet_cons]
    by_cases h : (k' == k) = true
    · simp [h, mapGet_cons]
    · simp only [Bool.not_eq_true] at h
      rw [if_neg (by simp [h]), mapGet_cons, if_neg (by simp [h]), ih]

theorem mapGet_mapSet_other {α : Type} (m : List (String × α)) (k k₂ : String) (v : α)
    (h : k₂ ≠ k) :
    mapGet (mapSet m k v) k₂ = mapGet m k₂ := by
  induction m with
  | nil =>
    show mapGet [(k, v)] k₂ = mapGet ([] : List (String × α)) k₂
    rw [mapGet_cons, if_neg (by simp [Ne.symm h])]
  | cons hd tl ih =>
    obtain ⟨k', v'⟩ := hd
    rw [mapSet_cons]
    by_cases hk : (k' == k) = true
    · have hk' : k' = k := by simpa using hk
      rw [if_pos hk, mapGet_cons, mapGet_cons, if_neg (by simp [Ne.symm h]),
        if_neg (by simp [hk', Ne.symm h])]
    · simp only [Bool.not_eq_true] at hk
      rw [if_neg (by simp [hk]), mapGet_cons, mapGet_cons, ih]

theorem mapSet_mapGet_self {α : Type} (m : List (String × α)) (k : String) (v : α)
    (h : mapGet m k = some v) :
    mapSet m k v = m := by
  induction m with
  | nil => simp [mapGet_nil] at h
  | cons hd tl ih =>
    obtain ⟨k', v'⟩ := hd
    rw [mapGet_cons] at h
    rw [mapSet_cons]
    by_cases hk : (k' == k) = true
    · have hk' : k' = k := by simpa using hk
      rw [if_pos hk]
      rw [if_pos hk] at h
      simp only [Option.some.injEq] at h
      rw [hk', h]
    · simp only [Bool.not_eq_true] at hk
      rw [if_neg (by simp [hk])]
      rw [if_neg (by simp [hk])] at h
      rw [ih h]

/-! ## Helper lemmas: strings and decimal rendering -/

theorem strIncludes_empty (s : String) : strIncludes s "" = true := by
  show charsHasSub [] s.data = true
  cases s.data <;> simp [charsHasSub, charsHasPref]

theorem char_digit_of_lt_ten : ∀ k, k < 10 → (Char.ofNat (48 + k)).isDigit = true := by decide

theorem decDigits_all_digit (fuel : Nat) :
    ∀ (n : Nat) (acc : List Char), (∀ c ∈ acc, c.isDigit = true) →
      ∀ c ∈ decDigits fuel n acc, c.isDigit = true := by
  induction fuel with
  | zero => intro n acc hacc; simpa [decDigits] using hacc
  | succ fuel ih =>
    intro n acc hacc
    have hd : (Char.ofNat (48 + n % 10)).isDigit = true :=
      char_digit_of_lt_ten _ (Nat.mod_lt _ (by decide))
    have hacc' : ∀ c ∈ Char.ofNat (48 + n % 10) :: acc, c.isDigit = true := by
      intro c hc
      rcases List.mem_cons.mp hc with h | h
      · rw [h]; exact hd
      · exact hacc c h
    show ∀ c ∈ (if n / 10 = 0 then _ else decDigits fuel (n / 10) _), c.isDigit = true
    by_cases h0 : n / 10 = 0
    · simpa [decDigits, h0] using hacc'
    · simpa [decDigits, h0] using ih (n / 10) _ hacc'

theorem decDigits_length_le (fuel : Nat) :
    ∀ (n : Nat) (acc : List Char), acc.length ≤ (decDigits fuel n acc).length := by
  induction fuel with
  | zero => intro n acc; simp [decDigits]
  | succ fuel ih =>
    intro n acc
    show acc.length ≤
      (if n / 10 = 0 then Char.ofNat (48 + n % 10) :: acc
       else decDigits fuel (n / 10) (Char.ofNat (48 + n % 10) :: acc)).length
    by_cases h0 : n / 10 = 0
    · simp [h0]
    · rw [if_neg h0]
      exact Nat.le_trans (Nat.le_succ _) (ih (n / 10) (Char.ofNat (48 + n % 10) :: acc))

theorem decDigits_ne_nil (fuel n : Nat) (acc : List Char) :
    decDigits (fuel + 1) n acc ≠ [] := by
  intro hcontra
  have h1 : (Char.ofNat (48 + n % 10) :: acc).length ≤ (decDigits (fuel + 1) n acc).length := by
    show _ ≤
      (if n / 10 = 0 then Char.ofNat (48 + n % 10) :: acc
       else decDigits fuel (n / 10) (Char.ofNat (48 + n % 10) :: acc)).length
    by_cases h0 : n / 10 = 0
    · rw [if_pos h0]
    · rw [if_neg h0]
      exact decDigits_length_le fuel (n / 10) (Char.ofNat (48 + n % 10) :: acc)
  rw [hcontra] at h1
  simp at h1

theorem natToString_isDecimalString (n : Nat) : isDecimalString (natToString n) = true := by
  have hne : decDigits (n + 1) n [] ≠ [] := decDigits_ne_nil n n []
  have hall : ∀ c ∈ decDigits (n + 1) n [], c.isDigit = true :=
    decDigits_all_digit (n + 1) n [] (by intro c hc; simp at hc)
  show (!(decDigits (n + 1) n []).isEmpty && (decDigits (n + 1) n []).all Char.isDigit) = true
  rw [Bool.and_eq_true, List.all_eq_true]
  constructor
  · cases h : decDigits (n + 1) n [] with
    | nil => exact absurd h hne
    | cons a as => simp
  · exact hall

/-! ## Helper lemmas: the `addUserToken` list update -/

theorem addToList_nil (t : UserToken) :
    addToList t [] = [{ toUserToken := t, metadata := none }] := rfl

theorem addToList_cons (t : UserToken) (r : UserTokenWithMetadata)
    (rs : List UserTokenWithMetadata) :
    addToList t (r :: rs)
      = if matchesAddress t.address r then mergeToken r t :: rs
        else r :: addToList t rs := rfl

theorem matchesAddress_mergeToken (t : UserToken) (r : UserTokenWithMetadata) :
    matchesAddress t.address (mergeToken r t) = true := by
  simp [matchesAddress, mergeToken]

theorem matchesAddress_self (t : UserToken) (m : Option TokenMetadata) :
    matchesAddress t.address { toUserToken := t, metadata := m } = true := by
  simp [matchesAddress]

theorem addToList_of_find_none (t : UserToken) (l : List UserTokenWithMetadata)
    (h : l.find? (matchesAddress t.address) = none) :
    addToList t l = l ++ [{ toUserToken := t, metadata := none }] := by
  induction l with
  | nil => rfl
  | cons r rs ih =>
    rw [List.find?_cons] at h
    cases hm : matchesAddress t.address r with
    | true => rw [hm] at h; simp at h
    | false =>
      rw [hm] at h
      simp only at h
      rw [addToList_cons, if_neg (by simp [hm]), ih h, List.cons_append]

theorem addToList_countP (t : UserToken) (l : List UserTokenWithMetadata) :
    (addToList t l).countP (matchesAddress t.address)
      = max (l.countP (matchesAddress t.address)) 1 := by
  induction l with
  | nil => simp [addToList_nil, List.countP_cons, matchesAddress_self]
  | cons r rs ih =>
    cases hm : matchesAddress t.address r with
    | true =>
      rw [addToList_cons, if_pos hm, List.countP_cons_of_pos _ _ (matchesAddress_mergeToken t r),
        List.countP_cons_of_pos _ _ hm]
      omega
    | false =>
      rw [addToList_cons, if_neg (by simp [hm]), List.countP_cons_of_neg _ _ (by simp [hm]),
        List.countP_cons_of_neg _ _ (by simp [hm]), ih]

theorem addToList_of_find_some (t : UserToken) (l : List UserTokenWithMetadata)
    (r : UserTokenWithMetadata) (h : l.find? (matchesAddress t.address) = some r) :
    addToList t l = l.set (l.findIdx (matchesAddress t.address)) (mergeToken r t) := by
  induction l with
  | nil => simp [List.find?] at h
  | cons x xs ih =>
    cases hm : matchesAddress t.address x with
    | true =>
      rw [List.find?_cons_of_pos _ hm] at h
      simp only [Option.some.injEq] at h
      rw [addToList_cons, if_pos hm, List.findIdx_cons, hm, cond_true, List.set_cons_zero, h]
    | false =>
      rw [List.find?_cons_of_neg _ (by simp [hm])] at h
      rw [addToList_cons, if_neg (by simp [hm]), List.findIdx_cons, hm, cond_false,
        List.set_cons_succ, ih h]

theorem addToList_find_self (t : UserToken) (l : List UserTokenWithMetadata) :
    ∃ m, (addToList t l).find? (matchesAddress t.address)
      = some { toUserToken := t, metadata := m } := by
  induction l with
  | nil =>
    exact ⟨none, by rw [addToList_nil, List.find?_cons_of_pos _ (matchesAddress_self t none)]⟩
  | cons r rs ih =>
    cases hm : matchesAddress t.address r with
    | true =>
      refine ⟨r.metadata, ?_⟩
      rw [addToList_cons, if_pos hm, List.find?_cons_of_pos _ (matchesAddress_mergeToken t r)]
      rfl
    | false =>
      obtain ⟨m, hm'⟩ := ih
      refine ⟨m, ?_⟩
      rw [addToList_cons, if_neg (by simp [hm]), List.find?_cons_of_neg _ (by simp [hm]), hm']

theorem addToList_find_other (t : UserToken) (l : List UserTokenWithMetadata) (a : String)
    (h : jsToLower a ≠ jsToLower t.address) :
    (addToList t l).find? (matchesAddress a) = l.find? (matchesAddress a) := by
  have hmt : ∀ m : Option TokenMetadata,
      matchesAddress a { toUserToken := t, metadata := m } = false := by
    intro m
    simp only [matchesAddress]
    exact beq_eq_false_iff_ne.mpr (fun hh => h hh.symm)
  induction l with
  | nil =>
    rw [addToList_nil, List.find?_cons_of_neg _ (by simp [hmt none]), List.find?_nil]
  | cons r rs ih =>
    cases hm : matchesAddress t.address r with
    | true =>
      have hra : matchesAddress a r = false := by
        have hr : jsToLower r.address = jsToLower t.address := by
          simpa [matchesAddress] using hm
        simp only [matchesAddress, hr]
        exact beq_eq_false_iff_ne.mpr (fun hh => h hh.symm)
      rw [addToList_cons, if_pos hm,
        List.find?_cons_of_neg _
          (by rw [show mergeToken r t = { toUserToken := t, metadata := r.metadata } from rfl,
                hmt r.metadata]; simp),
        List.find?_cons_of_neg _ (by simp [hra])]
    | false =>
      rw [addToList_cons, if_neg (by simp [hm])]
      cases hra : matchesAddress a r with
      | true =>
        rw [List.find?_cons_of_pos _ hra, List.find?_cons_of_pos _ hra]
      | false =>
        rw [List.find?_cons_of_neg _ (by simp [hra]), List.find?_cons_of_neg _ (by simp [hra]), ih]

theorem addToList_self_eq (t : UserToken) (l : List UserTokenWithMetadata)
    (r : UserTokenWithMetadata) (h1 : l.find? (matchesAddress t.address) = some r)
    (h2 : r.toUserToken = t) :
    addToList t l = l := by
  induction l with
  | nil => simp [List.find?] at h1
  | cons x xs ih =>
    cases hm : matchesAddress t.address x with
    | true =>
      rw [List.find?_cons_of_pos _ hm] at h1
      simp only [Option.some.injEq] at h1
      rw [addToList_cons, if_pos hm]
      subst h1
      rw [← h2]
      rfl
    | false =>
      rw [List.find?_cons_of_neg _ (by simp [hm])] at h1
      rw [addToList_cons, if_neg (by simp [hm]), ih h1]

/-! ## Helper lemmas: storage-level facts about `addUserToken` -/

theorem ownerList_addUserToken_self (st : TokenStorage) (o : String) (t : UserToken) :
    ownerList (addUserToken st o t) o = addToList t (ownerList st o) := by
  show (mapGet (mapSet st.userTokens (jsToLower o) _) (jsToLower o)).getD [] = _
  rw [mapGet_mapSet_self]
  rfl

theorem tokenMetadata_addUserToken (st : TokenStorage) (o : String) (t : UserToken) :
    (addUserToken st o t).tokenMetadata = st.tokenMetadata := rfl

theorem getUserTokens_length (st : TokenStorage) (o : String) :
    (getUserTokens st o).length = (ownerList st o).length := by
  simp [getUserTokens]

theorem addUserToken_self_eq (st : TokenStorage) (o : String) (t : UserToken)
    (r : UserTokenWithMetadata)
    (h1 : (ownerList st o).find? (matchesAddress t.address) = some r)
    (h2 : r.toUserToken = t) :
    addUserToken st o t = st := by
  have hlist : addToList t (ownerList st o) = ownerList st o := addToList_self_eq t _ r h1 h2
  have hne : ownerList st o ≠ [] := by
    intro hnil
    rw [hnil] at h1
    simp [List.find?] at h1
  have hget : mapGet st.userTokens (jsToLower o) = some (ownerList st o) := by
    show _ = some ((mapGet st.userTokens (jsToLower o)).getD [])
    cases hm : mapGet st.userTokens (jsToLower o) with
    | none =>
      exact absurd (by show (mapGet st.userTokens (jsToLower o)).getD [] = []; rw [hm]; rfl) hne
    | some v => rfl
  show (⟨mapSet st.userTokens (jsToLower o) (addToList t ((mapGet st.userTokens
      (jsToLower o)).getD [])), st.tokenMetadata⟩ : TokenStorage) = st
  rw [show (mapGet st.userTokens (jsToLower o)).getD [] = ownerList st o from rfl, hlist,
    mapSet_mapGet_self _ _ _ hget]

/-! ## Helper lemmas: folds of `addUserToken` over a token list -/

theorem foldl_addUserToken_ownerList (ts : List UserToken) (st : TokenStorage) (o : String) :
    ownerList (ts.foldl (fun s t => addUserToken s o t) st) o
      = ts.foldl (fun acc t => addToList t acc) (ownerList st o) := by
  induction ts generalizing st with
  | nil => rfl
  | cons t ts ih =>
    rw [List.foldl_cons, List.foldl_cons, ih, ownerList_addUserToken_self]

theorem foldl_addUserToken_tokenMetadata (ts : List UserToken) (st : TokenStorage)
    (o : String) :
    (ts.foldl (fun s t => addUserToken s o t) st).tokenMetadata = st.tokenMetadata := by
  induction ts generalizing st with
  | nil => rfl
  | cons t ts ih => rw [List.foldl_cons, ih, tokenMetadata_addUserToken]

theorem foldl_addToList_find_other (ts : List UserToken) (l : List UserTokenWithMetadata)
    (a : String) (h : ∀ t ∈ ts, jsToLower a ≠ jsToLower t.address) :
    (ts.foldl (fun acc t => addToList t acc) l).find? (matchesAddress a)
      = l.find? (matchesAddress a) := by
  induction ts generalizing l with
  | nil => rfl
  | cons t ts ih =>
    rw [List.foldl_cons, ih _ (fun u hu => h u (List.mem_cons_of_mem t hu)),
      addToList_find_other t l a (h t (List.mem_cons_self t ts))]

theorem foldl_addToList_find_self (ts : List UserToken) (l : List UserTokenWithMetadata)
    (hdist : ts.Pairwise (fun a b => jsToLower a.address ≠ jsToLower b.address)) :
    ∀ t ∈ ts, ∃ m, (ts.foldl (fun acc t => addToList t acc) l).find? (matchesAddress t.address)
      = some { toUserToken := t, metadata := m } := by
  induction ts generalizing l with
  | nil => intro t ht; simp at ht
  | cons t₀ ts ih =>
    intro t ht
    rcases List.mem_cons.mp ht with rfl | ht'
    · obtain ⟨m, hm⟩ := addToList_find_self t l
      refine ⟨m, ?_⟩
      rw [List.foldl_cons,
        foldl_addToList_find_other ts (addToList t l) t.address
          (fun u hu => (List.pairwise_cons.mp hdist).1 u hu), hm]
    · rw [List.foldl_cons]
      exact ih (addToList t₀ l) (List.pairwise_cons.mp hdist).2 t ht'

theorem foldl_addUserToken_noop (ts : List UserToken) (st : TokenStorage) (o : String)
    (h : ∀ t ∈ ts, ∃ r, (ownerList st o).find? (matchesAddress t.address) = some r
        ∧ r.toUserToken = t) :
    ts.foldl (fun s t => addUserToken s o t) st = st := by
  induction ts with
  | nil => rfl
  | cons t ts ih =>
    obtain ⟨r, hr1, hr2⟩ := h t (List.mem_cons_self t ts)
    rw [List.foldl_cons, addUserToken_self_eq st o t r hr1 hr2,
      ih (fun u hu => h u (List.mem_cons_of_mem t hu))]

theorem foldl_addToList_fresh (ts : List UserToken) (l : List UserTokenWithMetadata)
    (hdist : ts.Pairwise (fun a b => jsToLower a.address ≠ jsToLower b.address))
    (hnone : ∀ t ∈ ts, l.find? (matchesAddress t.address) = none) :
    ts.foldl (fun acc t => addToList t acc) l
      = l ++ ts.map (fun t => { toUserToken := t, metadata := none }) := by
  induction ts generalizing l with
  | nil => simp
  | cons t ts ih =>
    rw [List.foldl_cons, addToList_of_find_none t l (hnone t (List.mem_cons_self t ts))]
    have hnone' : ∀ u ∈ ts,
        (l ++ [({ toUserToken := t, metadata := none } : UserTokenWithMetadata)]).find? (matchesAddress u.address)
          = none := by
      intro u hu
      rw [List.find?_eq_none]
      intro x hx
      rcases List.mem_append.mp hx with hxl | hxr
      · have := List.find?_eq_none.mp (hnone u (List.mem_cons_of_mem t hu)) x hxl
        exact this
      · have hx' : x = { toUserToken := t, metadata := none } := by simpa using hxr
        rw [hx']
        simp only [matchesAddress, Bool.not_eq_true]
        exact beq_eq_false_iff_ne.mpr ((List.pairwise_cons.mp hdist).1 u hu)
    rw [ih _ (List.pairwise_cons.mp hdist).2 hnone', List.append_assoc]
    rfl

theorem foldl_if_filter {α β : Type} (p : β → Bool) (f : α → β → α) (ts : List β) (a : α) :
    ts.foldl (fun s t => if p t then f s t else s) a = (ts.filter p).foldl f a := by
  induction ts generalizing a with
  | nil => rfl
  | cons t ts ih =>
    cases hp : p t with
    | true => rw [List.foldl_cons, if_pos hp, List.filter_cons_of_pos hp, List.foldl_cons, ih]
    | false =>
      rw [List.foldl_cons, if_neg (by simp [hp]), List.filter_cons_of_neg (by simp [hp]), ih]

/-! ## Claim theorems -/

/-- Claim C1: after `addUserToken(owner, token)` the owner's list holds
at most one record with `token.address` (case-insensitively), provided
it did so before (the registry invariant); a present record is updated
in place at its index by the shallow merge `mergeToken` with the list
length (hence `getUserTokens` length) unchanged, and an absent record is
appended. -/
theorem addUserToken_no_duplicate (st : TokenStorage) (o : String) (t : UserToken)
    (h : (ownerList st o).countP (matchesAddress t.address) ≤ 1) :
    (ownerList (addUserToken st o t) o).countP (matchesAddress t.address) ≤ 1
    ∧ ((ownerList st o).find? (matchesAddress t.address) = none →
        ownerList (addUserToken st o t) o
          = ownerList st o ++ [{ toUserToken := t, metadata := none }])
    ∧ (∀ r, (ownerList st o).find? (matchesAddress t.address) = some r →
        ownerList (addUserToken st o t) o
          = (ownerList st o).set ((ownerList st o).findIdx (matchesAddress t.address))
              (mergeToken r t)
        ∧ (getUserTokens (addUserToken st o t) o).length = (getUserTokens st o).length) := by
  refine ⟨?_, ?_, ?_⟩
  · rw [ownerList_addUserToken_self, addToList_countP]
    omega
  · intro hn
    rw [ownerList_addUserToken_self, addToList_of_find_none t _ hn]
  · intro r hr
    refine ⟨?_, ?_⟩
    · rw [ownerList_addUserToken_self, addToList_of_find_some t _ r hr]
    · rw [getUserTokens_length, getUserTokens_length, ownerList_addUserToken_self,
        addToList_of_find_some t _ r hr, List.length_set]

/-- Witness for C1: re-adding `tokenA`'s address (with a new name) to
the one-record registry `stEx` leaves the `getUserTokens` length
unchanged. -/
theorem addUserToken_no_duplicate_witness :
    (getUserTokens (addUserToken stEx addrA tokenA2) addrA).length
      = (getUserTokens stEx addrA).length :=
  ((addUserToken_no_duplicate stEx addrA tokenA2 (by decide)).2.2
    { toUserToken := tokenA, metadata := none } (by decide)).2

/-- Claim C4: `updateTokenMetadata` leaves every metadata field absent
from the partial unchanged, uses the `lastUpdated = 0` baseline when no
metadata existed, and stamps `lastUpdated` to the current time, which is
at least the previous stamp whenever the clock has not gone backwards
past it. -/
theorem updateTokenMetadata_frame (st : TokenStorage) (a : String) (p : TokenMetadataPatch)
    (now : Nat)
    (h : ((mapGet st.tokenMetadata (jsToLower a)).getD baselineMetadata).lastUpdated ≤ now) :
    ∃ m, mapGet (updateTokenMetadata st a p now).tokenMetadata (jsToLower a) = some m
      ∧ (p.description = none →
          m.description
            = ((mapGet st.tokenMetadata (jsToLower a)).getD baselineMetadata).description)
      ∧ (p.website = none →
          m.website = ((mapGet st.tokenMetadata (jsToLower a)).getD baselineMetadata).website)
      ∧ (p.logo = none →
          m.logo = ((mapGet st.tokenMetadata (jsToLower a)).getD baselineMetadata).logo)
      ∧ (p.tags = none →
          m.tags = ((mapGet st.tokenMetadata (jsToLower a)).getD baselineMetadata).tags)
      ∧ (p.isVerified = none →
          m.isVerified
            = ((mapGet st.tokenMetadata (jsToLower a)).getD baselineMetadata).isVerified)
      ∧ m.lastUpdated = now
      ∧ ((mapGet st.tokenMetadata (jsToLower a)).getD baselineMetadata).lastUpdated
          ≤ m.lastUpdated
      ∧ (mapGet st.tokenMetadata (jsToLower a) = none →
          m = { mergeMetadata baselineMetadata p with lastUpdated := now }) := by
  refine ⟨{ mergeMetadata ((mapGet st.tokenMetadata (jsToLower a)).getD baselineMetadata) p
      with lastUpdated := now }, ?_, ?_, ?_, ?_, ?_, ?_, rfl, h, ?_⟩
  · show mapGet (mapSet st.tokenMetadata (jsToLower a) _) (jsToLower a) = _
    rw [mapGet_mapSet_self]
  · intro hp; simp [mergeMetadata, hp]
  · intro hp; simp [mergeMetadata, hp]
  · intro hp; simp [mergeMetadata, hp]
  · intro hp; simp [mergeMetadata, hp]
  · intro hp; simp [mergeMetadata, hp]
  · intro hn; rw [hn]; rfl

/-- Witness for C4: patching only the description of `addrB`'s stored
metadata in `stMeta` preserves the previously stored tags and stamps
`lastUpdated` to the given time. -/
theorem updateTokenMetadata_frame_witness :
    ∃ m, mapGet (updateTokenMetadata stMeta addrB pDesc 5).tokenMetadata (jsToLower addrB)
        = some m
      ∧ m.tags = ((mapGet stMeta.tokenMetadata (jsToLower addrB)).getD baselineMetadata).tags
      ∧ m.lastUpdated = 5 := by
  obtain ⟨m, h1, _, _, _, h5, _, h7, _, _⟩ :=
    updateTokenMetadata_frame stMeta addrB pDesc 5 (by decide)
  exact ⟨m, h1, h5 rfl, h7⟩

/-- Claim C5, counterexample: removing an address that is not present
for an owner is not always a state no-op — on an owner with no stored
entry, `removeUserToken` creates an empty entry for that owner, which is
observable through `getStorageStats().totalUsers` (1 instead of 0). -/
theorem removeUserToken_state_change_cex :
    removeUserToken emptyStorage "0xaa" "0xbb" ≠ emptyStorage
    ∧ (getStorageStats (removeUserToken emptyStorage "0xaa" "0xbb")).totalUsers = 1
    ∧ (getStorageStats emptyStorage).totalUsers = 0
    ∧ getUserTokens emptyStorage "0xaa" = [] := by decide

/-- Claim C5, amended: after `removeUserToken(owner, address)` the
owner's `getUserTokens` never contains a record with that address; when
the address is not present for the owner the call raises no exception,
leaves every user's `getUserTokens` unchanged, and leaves the state
fully unchanged when the owner already has a stored entry — but when the
owner has no entry it creates an empty entry for that owner. -/
theorem removeUserToken_amended (st : TokenStorage) (o a : String) :
    (∀ r ∈ getUserTokens (removeUserToken st o a) o, jsToLower r.address ≠ jsToLower a)
    ∧ ((∀ r ∈ (mapGet st.userTokens (jsToLower o)).getD [],
          jsToLower r.address ≠ jsToLower a) →
        (∀ o', getUserTokens (removeUserToken st o a) o' = getUserTokens st o')
        ∧ ((mapGet st.userTokens (jsToLower o)).isSome = true → removeUserToken st o a = st)
        ∧ (mapGet st.userTokens (jsToLower o) = none →
            removeUserToken st o a
              = { st with userTokens := mapSet st.userTokens (jsToLower o) [] })) := by
  have hlist : ownerList (removeUserToken st o a) o
      = ((mapGet st.userTokens (jsToLower o)).getD []).filter
          (fun t => jsToLower t.address != jsToLower a) := by
    show (mapGet (mapSet st.userTokens (jsToLower o) _) (jsToLower o)).getD [] = _
    rw [mapGet_mapSet_self]
    rfl
  constructor
  · intro r hr
    unfold getUserTokens at hr
    rw [hlist] at hr
    obtain ⟨r₀, hr₀, rfl⟩ := List.mem_map.mp hr
    exact bne_iff_ne.mp (List.mem_filter.mp hr₀).2
  · intro hno
    have hfilter : ((mapGet st.userTokens (jsToLower o)).getD []).filter
        (fun t => jsToLower t.address != jsToLower a)
        = (mapGet st.userTokens (jsToLower o)).getD [] :=
      List.filter_eq_self.mpr (fun r hr => bne_iff_ne.mpr (hno r hr))
    refine ⟨?_, ?_, ?_⟩
    · intro o'
      unfold getUserTokens
      by_cases ho : jsToLower o' = jsToLower o
      · have h1 : ownerList (removeUserToken st o a) o'
            = ownerList st o' := by
          show (mapGet (mapSet st.userTokens (jsToLower o) _) (jsToLower o')).getD []
            = (mapGet st.userTokens (jsToLower o')).getD []
          rw [ho, mapGet_mapSet_self, Option.getD_some, hfilter]
        rw [h1, show (removeUserToken st o a).tokenMetadata = st.tokenMetadata from rfl]
      · have h1 : ownerList (removeUserToken st o a) o'
            = ownerList st o' := by
          show (mapGet (mapSet st.userTokens (jsToLower o) _) (jsToLower o')).getD []
            = (mapGet st.userTokens (jsToLower o')).getD []
          rw [mapGet_mapSet_other _ _ _ _ ho]
        rw [h1, show (removeUserToken st o a).tokenMetadata = st.tokenMetadata from rfl]
    · intro hsome
      obtain ⟨l, hl⟩ := Option.isSome_iff_exists.mp hsome
      show (⟨mapSet st.userTokens (jsToLower o)
          (((mapGet st.userTokens (jsToLower o)).getD []).filter
            (fun t => jsToLower t.address != jsToLower a)), st.tokenMetadata⟩ : TokenStorage)
        = st
      rw [hfilter, hl, Option.getD_some, mapSet_mapGet_self _ _ _ hl]
    · intro hnone
      show (⟨mapSet st.userTokens (jsToLower o)
          (((mapGet st.userTokens (jsToLower o)).getD []).filter
            (fun t => jsToLower t.address != jsToLower a)), st.tokenMetadata⟩ : TokenStorage)
        = _
      rw [hnone]
      rfl

/-- Witness for C5 (amended): removing the absent address `addrC` for
owner `addrA` in `stEx` (which stores only `tokenA` at `addrB`) leaves
the registry state unchanged. -/
theorem removeUserToken_amended_witness :
    removeUserToken stEx addrA addrC = stEx :=
  ((removeUserToken_amended stEx addrA addrC).2 (by decide)).2.1 (by decide)

/-- Claim C8: `searchTokens(owner, query)` returns exactly the owner's
records whose name, symbol or address contains the query as a
case-insensitive substring, and it returns the empty list (rather than
an error) for an owner with zero tokens. -/
theorem searchTokens_characterizes (st : TokenStorage) (o q : String) :
    (∀ r, r ∈ searchTokens st o q ↔
      (r ∈ getUserTokens st o ∧
        (strIncludes (jsToLower r.name) (jsToLower q) ||
         strIncludes (jsToLower r.symbol) (jsToLower q) ||
         strIncludes (jsToLower r.address) (jsToLower q)) = true))
    ∧ (getUserTokens st o = [] → searchTokens st o q = []) := by
  constructor
  · intro r
    unfold searchTokens
    exact List.mem_filter
  · intro h
    unfold searchTokens
    rw [h]
    rfl

/-- Witness for C8: searching an empty registry returns the empty
list. -/
theorem searchTokens_characterizes_witness :
    searchTokens emptyStorage addrA "usd" = [] :=
  (searchTokens_characterizes emptyStorage addrA "usd").2 rfl

/-- Claim C9: `addUserToken` never raises to its caller: even when the
durable-store write fails, the failure is swallowed by `saveToStorage`'s
catch and the call returns normally with the in-memory mutation already
applied. -/
theorem addUserToken_fail_soft (writeOk : Bool) (st : TokenStorage) (o : String)
    (t : UserToken) :
    addUserTokenAndSave writeOk st o t = Except.ok (addUserToken st o t)
    ∧ saveToStorage writeOk = Except.ok () := by
  cases writeOk <;> exact ⟨rfl, rfl⟩

/-- Claim C10: searching with the empty query returns all of the owner's
records (the empty string is a substring of every name, symbol and
address). -/
theorem searchTokens_empty_query (st : TokenStorage) (o : String) :
    searchTokens st o "" = getUserTokens st o := by
  unfold searchTokens
  simp only [show jsToLower "" = "" from rfl]
  exact List.filter_eq_self.mpr (fun r _ => by simp [strIncludes_empty])

/-- Helper: the state component of a well-formed import is the fold of
`addUserToken` over the converted valid records. -/
theorem importUserData_snd_eq (st : TokenStorage) (o : String) (ts : List RawToken) :
    (importUserData st o { tokens := some ts }).2
      = ((ts.filter isValidToken).map rawToUserToken).foldl
          (fun s t => addUserToken s o t) st := by
  show ts.foldl (fun s token => if isValidToken token
      then addUserToken s o (rawToUserToken token) else s) st = _
  rw [foldl_if_filter isValidToken
      (fun s token => addUserToken s o (rawToUserToken token)) ts st,
    List.foldl_map]

/-- Claim C2: exporting an owner's data and importing the document for a
fresh owner reproduces the original owner's token set exactly (given the
stored records are valid and satisfy the per-owner address-uniqueness
invariant). -/
theorem export_import_roundtrip (st : TokenStorage) (o newO : String)
    (hval : ∀ r ∈ ownerList st o, isValidToken (recordToRaw r) = true)
    (hdist : (ownerList st o).Pairwise (fun a b => jsToLower a.address ≠ jsToLower b.address))
    (hfresh : ownerList st newO = []) :
    getUserTokens (importUserData st newO (exportRoundtrip (exportUserData st o))).2 newO
      = getUserTokens st o := by
  have hdoc : exportRoundtrip (exportUserData st o)
      = { tokens := some ((ownerList st o).map recordToRaw) } := by
    show ({ tokens := some (((ownerList st o).map _).map recordToRaw) } : ImportDoc) = _
    rw [List.map_map]
    exact congrArg (fun l => ({ tokens := some l } : ImportDoc))
      (List.map_congr_left (fun r _ => rfl))
  have hfilter : ((ownerList st o).map recordToRaw).filter isValidToken
      = (ownerList st o).map recordToRaw := by
    refine List.filter_eq_self.mpr ?_
    intro x hx
    obtain ⟨r, hr, rfl⟩ := List.mem_map.mp hx
    exact hval r hr
  have hus : ((ownerList st o).map recordToRaw).map rawToUserToken
      = (ownerList st o).map (fun r => r.toUserToken) := by
    rw [List.map_map]
    exact List.map_congr_left (fun r _ => rfl)
  have hdist' : ((ownerList st o).map (fun r => r.toUserToken)).Pairwise
      (fun a b => jsToLower a.address ≠ jsToLower b.address) :=
    List.pairwise_map.mpr hdist
  have hst2 : (importUserData st newO (exportRoundtrip (exportUserData st o))).2
      = ((ownerList st o).map (fun r => r.toUserToken)).foldl
          (fun s t => addUserToken s newO t) st := by
    rw [hdoc, importUserData_snd_eq, hfilter, hus]
  have hlist : ownerList (importUserData st newO (exportRoundtrip (exportUserData st o))).2 newO
      = (ownerList st o).map
          (fun r => ({ toUserToken := r.toUserToken, metadata := none } :
            UserTokenWithMetadata)) := by
    rw [hst2, foldl_addUserToken_ownerList, hfresh,
      foldl_addToList_fresh _ [] hdist' (fun t _ => rfl), List.nil_append, List.map_map]
    exact List.map_congr_left (fun r _ => rfl)
  have hmeta : (importUserData st newO (exportRoundtrip (exportUserData st o))).2.tokenMetadata
      = st.tokenMetadata := by
    rw [hst2]
    exact foldl_addUserToken_tokenMetadata _ _ _
  unfold getUserTokens
  rw [hlist, hmeta, List.map_map]
  exact List.map_congr_left (fun r _ => rfl)

/-- Witness for C2: round-tripping the one-token registry `stEx` from
owner `addrA` to the fresh owner `addrB` reproduces the token set. -/
theorem export_import_roundtrip_witness :
    getUserTokens (importUserData stEx addrB (exportRoundtrip (exportUserData stEx addrA))).2
        addrB
      = getUserTokens stEx addrA :=
  export_import_roundtrip stEx addrA addrB (by decide) (by decide) (by decide)

/-- Claim C3: a well-formed import payload reports success; on a fresh
owner, with the valid records' addresses pairwise distinct, exactly the
valid records are added (the invalid ones are skipped without aborting
the batch) and the resulting `getUserTokens` length is the number of
valid records. -/
theorem importUserData_skips_invalid (st : TokenStorage) (o : String) (ts : List RawToken) :
    (importUserData st o { tokens := some ts }).1 = true
    ∧ (ownerList st o = [] →
        ((ts.filter isValidToken).map rawToUserToken).Pairwise
            (fun a b => jsToLower a.address ≠ jsToLower b.address) →
        ownerList (importUserData st o { tokens := some ts }).2 o
          = (ts.filter isValidToken).map
              (fun t => ({ toUserToken := rawToUserToken t, metadata := none } :
                UserTokenWithMetadata))
        ∧ (getUserTokens (importUserData st o { tokens := some ts }).2 o).length
            = (ts.filter isValidToken).length) := by
  refine ⟨rfl, ?_⟩
  intro hfresh hdist
  have hlist : ownerList (importUserData st o { tokens := some ts }).2 o
      = (ts.filter isValidToken).map
          (fun t => ({ toUserToken := rawToUserToken t, metadata := none } :
            UserTokenWithMetadata)) := by
    rw [importUserData_snd_eq, foldl_addUserToken_ownerList, hfresh,
      foldl_addToList_fresh _ [] hdist (fun t _ => rfl), List.nil_append, List.map_map]
    exact List.map_congr_left (fun t _ => rfl)
  refine ⟨hlist, ?_⟩
  rw [getUserTokens_length, hlist, List.length_map]

/-- Witness for C3: importing two valid records around one invalid
record (non-address creator) into an empty registry reports success and
adds exactly the two valid records. -/
theorem importUserData_skips_invalid_witness :
    (importUserData emptyStorage addrA { tokens := some rawListEx }).1 = true
    ∧ (getUserTokens (importUserData emptyStorage addrA
        { tokens := some rawListEx }).2 addrA).length = 2 := by
  have h := importUserData_skips_invalid emptyStorage addrA rawListEx
  exact ⟨h.1, ((h.2 rfl (by decide)).2).trans (by decide)⟩

/-- Claim C6: `syncWithBlockchain` maps every factory result to a
record whose `createdAt` is the on-chain seconds timestamp times 1000,
whose supplies are decimal strings, and whose transaction hash is empty,
feeding each into `addUserToken`; re-running it on the same results (of
pairwise-distinct addresses) leaves the registry state unchanged. -/
theorem syncWithBlockchain_maps_and_idempotent (st : TokenStorage) (ua : String) (cid : Nat)
    (fts : List FactoryToken)
    (h : fts.Pairwise (fun f g => jsToLower f.tokenAddress ≠ jsToLower g.tokenAddress)) :
    (∀ f : FactoryToken,
        (factoryToUserToken cid f).createdAt = f.createdAt * 1000
        ∧ (factoryToUserToken cid f).transactionHash = ""
        ∧ isDecimalString (factoryToUserToken cid f).initialSupply = true
        ∧ isDecimalString (factoryToUserToken cid f).maxSupply = true)
    ∧ syncWithBlockchain (syncWithBlockchain st ua cid fts) ua cid fts
        = syncWithBlockchain st ua cid fts := by
  constructor
  · intro f
    refine ⟨rfl, rfl, ?_, ?_⟩
    · show isDecimalString ((f.initialSupply.map natToString).getD "0") = true
      cases hs : f.initialSupply with
      | none => decide
      | some n => exact natToString_isDecimalString n
    · show isDecimalString ((f.maxSupply.map natToString).getD "0") = true
      cases hs : f.maxSupply with
      | none => decide
      | some n => exact natToString_isDecimalString n
  · have hsync : ∀ s : TokenStorage, syncWithBlockchain s ua cid fts
        = (fts.map (factoryToUserToken cid)).foldl (fun s' t => addUserToken s' ua t) s := by
      intro s
      rw [List.foldl_map]
      rfl
    have hdist' : (fts.map (factoryToUserToken cid)).Pairwise
        (fun a b => jsToLower a.address ≠ jsToLower b.address) :=
      List.pairwise_map.mpr h
    have hinv : ∀ t ∈ fts.map (factoryToUserToken cid),
        ∃ r, (ownerList (syncWithBlockchain st ua cid fts) ua).find? (matchesAddress t.address)
            = some r ∧ r.toUserToken = t := by
      intro t ht
      rw [hsync st, foldl_addUserToken_ownerList]
      obtain ⟨m, hm⟩ :=
        foldl_addToList_find_self (fts.map (factoryToUserToken cid)) (ownerList st ua)
          hdist' t ht
      exact ⟨{ toUserToken := t, metadata := m }, hm, rfl⟩
    rw [hsync (syncWithBlockchain st ua cid fts)]
    exact foldl_addUserToken_noop (fts.map (factoryToUserToken cid))
      (syncWithBlockchain st ua cid fts) ua hinv

/-- Witness for C6: syncing the single factory result `factoryEx` twice
into an empty registry equals syncing it once. -/
theorem syncWithBlockchain_maps_and_idempotent_witness :
    syncWithBlockchain (syncWithBlockchain emptyStorage addrA 4207 [factoryEx])
        addrA 4207 [factoryEx]
      = syncWithBlockchain emptyStorage addrA 4207 [factoryEx] :=
  (syncWithBlockchain_maps_and_idempotent emptyStorage addrA 4207 [factoryEx] (by decide)).2

/-- Claim C7: while connected, an account-change notification with zero
accounts forces a transition to the disconnected state with an empty
address (and cleared balance, unknown network); a notification with a
new nonzero account list re-resolves the session against the provider,
re-entering the connected state with the updated address, balance and
network status. -/
theorem handleAccountsChanged_spec (env : WalletEnv) (st : WalletState)
    (accounts : List String) (_hC : st.isConnected = true) :
    (accounts = [] → handleAccountsChanged env st accounts
        = { isConnected := false, address := "", balance := "0",
            networkStatus := NetworkStatus.unknown })
    ∧ (accounts ≠ [] → env.ok = true → env.accounts = accounts →
        env.signerAddress = accounts.headD "" →
        handleAccountsChanged env st accounts
          = { isConnected := true, address := env.signerAddress, balance := env.balance,
              networkStatus :=
                if env.chainId == 4207 then NetworkStatus.correct
                else NetworkStatus.wrong }) := by
  constructor
  · intro hnil
    subst hnil
    rfl
  · intro hne hok hacc hsig
    cases accounts with
    | nil => exact absurd rfl hne
    | cons x xs =>
      unfold handleAccountsChanged checkConnection
      rw [if_neg (by simp)]
      rw [if_pos hok, if_pos (by rw [hacc]; simp)]

/-- Witness for C7: with the concrete provider snapshot `walletEnvEx`,
the handler disconnects on an empty account list and reconnects to
`0xbb` on the nonzero list. -/
theorem handleAccountsChanged_spec_witness :
    handleAccountsChanged walletEnvEx walletStEx []
        = { isConnected := false, address := "", balance := "0",
            networkStatus := NetworkStatus.unknown }
    ∧ handleAccountsChanged walletEnvEx walletStEx ["0xbb"]
        = { isConnected := true, address := "0xbb", balance := "2",
            networkStatus := NetworkStatus.correct } := by
  constructor
  · exact (handleAccountsChanged_spec walletEnvEx walletStEx [] rfl).1 rfl
  · exact ((handleAccountsChanged_spec walletEnvEx walletStEx ["0xbb"] rfl).2
      (by simp) rfl rfl rfl).trans (by decide)

end EdgenFactory
